import Mathlib

/-!
Verification of the BitNet.cpp application core (model registry, inference
process orchestration, chat formatting) against its natural-language
specification.  The definitions below are a shallow embedding of the Python
sources `config.py`, `model_manager.py` and `inference.py`: pure string
manipulation is translated directly, subprocess execution and the filesystem
are passed in as explicit oracle arguments, and Python exceptions become an
explicit `Except` error channel.  Text is modelled as `List Char` where
structural reasoning on strings is needed, and as `String` elsewhere.
-/

/-- Character sequences, the carrier for the text-processing parts of the
embedding (`str` values flowing through the chat formatter). -/
abbrev Str := List Char

/-- Python `str.__contains__` (the `in` operator) on character sequences:
scans every suffix for the needle as a prefix. -/
def listContains (needle : Str) : Str → Bool
  | [] => needle.isEmpty
  | c :: cs => needle.isPrefixOf (c :: cs) || listContains needle cs

/-- The whitespace class stripped by Python `str.strip()` (ASCII part;
the Unicode extras are irrelevant to the texts in this development). -/
def isPySpace (c : Char) : Bool :=
  c = ' ' || c = '\t' || c = '\n' || c = '\r' || c = '\x0b' || c = '\x0c'

/-- Python `str.strip()`: drop whitespace from both ends. -/
def pyStrip (s : Str) : Str :=
  ((s.dropWhile isPySpace).reverse.dropWhile isPySpace).reverse

/-- The assistant marker `"Assistant: "` used by the chat formatter in
`inference.py` both as the prompt cue and as the split separator. -/
def assistantCue : Str := "Assistant: ".data

/-- Python `s.split("Assistant: ")`: leftmost non-overlapping splitting on
the assistant marker, as performed by `chat_completion`. -/
def pySplitA : Str → List Str
  | [] => [[]]
  | c :: cs =>
    if assistantCue.isPrefixOf (c :: cs) then
      [] :: pySplitA ((c :: cs).drop assistantCue.length)
    else
      match pySplitA cs with
      | [] => [[c]]
      | h :: t => (c :: h) :: t
termination_by s => s.length
decreasing_by
  · simp only [List.length_drop, List.length_cons]
    have : assistantCue.length = 11 := rfl
    omega
  · simp

/-- Python `lst[-1]` on a list of strings (total: returns `[]` on the empty
list, a case that never arises because `split` returns a non-empty list). -/
def pyLast : List Str → Str
  | [] => []
  | [x] => x
  | _ :: x :: xs => pyLast (x :: xs)

/-- Concatenation of a list of chunks, used to talk about everything a
stream has delivered so far. -/
def concatAll : List Str → Str
  | [] => []
  | c :: cs => c ++ concatAll cs

/-! ## Configuration (`config.py`) -/

/-- `config.SUPPORTED_MODELS`: catalog from Hugging Face model id to
`(model_name, description)`. -/
def SUPPORTED_MODELS : String → Option (String × String)
  | "microsoft/BitNet-b1.58-2B-4T" =>
    some ("BitNet-b1.58-2B-4T", "Official BitNet 2B parameter model (4T tokens)")
  | "1bitLLM/bitnet_b1_58-large" =>
    some ("bitnet_b1_58-large", "BitNet b1.58 large model")
  | "1bitLLM/bitnet_b1_58-3B" =>
    some ("bitnet_b1_58-3B", "BitNet b1.58 3B model")
  | "HF1BitLLM/Llama3-8B-1.58-100B-tokens" =>
    some ("Llama3-8B-1.58-100B-tokens", "Llama3 8B model quantized to 1.58 bits (100B tokens)")
  | "tiiuae/Falcon3-1B-Instruct-1.58bit" =>
    some ("Falcon3-1B-Instruct-1.58bit", "Falcon3 1B Instruct model quantized to 1.58 bits")
  | "tiiuae/Falcon3-3B-Instruct-1.58bit" =>
    some ("Falcon3-3B-Instruct-1.58bit", "Falcon3 3B Instruct model quantized to 1.58 bits")
  | "tiiuae/Falcon3-7B-Instruct-1.58bit" =>
    some ("Falcon3-7B-Instruct-1.58bit", "Falcon3 7B Instruct model quantized to 1.58 bits")
  | "tiiuae/Falcon3-10B-Instruct-1.58bit" =>
    some ("Falcon3-10B-Instruct-1.58bit", "Falcon3 10B Instruct model quantized to 1.58 bits")
  | _ => none

/-- `config.SUPPORTED_QUANT_TYPES`: Python dict; `none` models a key that is
absent (so that subscripting it raises `KeyError`). -/
def SUPPORTED_QUANT_TYPES : String → Option (List String)
  | "arm64" => some ["i2_s", "tl1"]
  | "x86_64" => some ["i2_s", "tl2"]
  | _ => none

/-- `config.ARCH_ALIAS.get(machine, machine)` as used by
`ModelManager._get_system_info`: alias known spellings, pass everything else
through unchanged. -/
def resolveArch (machine : String) : String :=
  match machine with
  | "AMD64" => "x86_64"
  | "x86" => "x86_64"
  | "x86_64" => "x86_64"
  | "aarch64" => "arm64"
  | "arm64" => "arm64"
  | "ARM64" => "arm64"
  | m => m

/-! ## Model registry (`model_manager.py`) -/

/-- One record of `registry["models"]` (`model_manager.download_model`). -/
structure InstalledModel where
  model_id : String
  model_name : String
  quant_type : String
  path : String
  gguf_path : String
  description : String
deriving DecidableEq, Repr

/-- The in-memory `registry["models"]` dict: insertion-ordered key/value
pairs, as Python dicts are. -/
abbrev Registry := List (String × InstalledModel)

/-- Python `name in registry["models"]` / `registry["models"][name]`
combined: first matching entry, if any. -/
def regLookup (reg : Registry) (name : String) : Option InstalledModel :=
  (reg.find? (fun p => p.1 == name)).map (·.2)

/-- Python dict assignment `registry["models"][name] = m`: update in place
when the key exists, append otherwise. -/
def dictInsert (reg : Registry) (name : String) (m : InstalledModel) : Registry :=
  if reg.any (fun p => p.1 == name) then
    reg.map (fun p => if p.1 == name then (name, m) else p)
  else
    reg ++ [(name, m)]

/-- Python `del registry["models"][name]`. -/
def dictErase (reg : Registry) (name : String) : Registry :=
  reg.filter (fun p => p.1 != name)

/-- State owned by a `ModelManager`: the in-memory registry and the copy
last persisted to `registry.json` by `_save_registry`. -/
structure ManagerState where
  registry : Registry
  disk : Registry
deriving DecidableEq, Repr

/-- `ModelManager.list_installed_models`: returns `registry["models"]`. -/
def list_installed_models (st : ManagerState) : Registry :=
  st.registry

/-- Python exceptions that can cross the boundaries modelled here. -/
inductive PyError where
  | valueError (msg : String)
  | runtimeError (msg : String)
  | keyError (key : String)
  | indexError
  | unicodeDecodeError
  | recursionError
deriving DecidableEq, Repr

/-- A decoded registry document for `_load_registry`; only the shape
matters, so a minimal JSON value type suffices. -/
inductive Json where
  | null
  | bool (b : Bool)
  | num (n : Int)
  | str (s : String)
  | arr (elems : List Json)
  | obj (fields : List (String × Json))

/-- The `{"models": {}}` document `_load_registry` falls back to. -/
def emptyRegistryJson : Json := .obj [("models", .obj [])]

/-- The ways `json.load` can fail on an existing registry file: a parse
failure (`json.JSONDecodeError`), or a content-driven failure outside that
class — `UnicodeDecodeError` when the file bytes are not valid UTF-8, or
`RecursionError` on deeply nested content.  The `except` clause in
`_load_registry` catches only the first. -/
inductive JsonLoadError where
  | jsonDecodeError
  | unicodeDecodeError
  | recursionError
deriving DecidableEq, Repr

/-- State of `registry.json` on disk as seen by `_load_registry`:
`none` = file missing; `some (.error e)` = present but `json.load` raises
`e`; `some (.ok v)` = decodes to `v`.  The source catches only
`json.JSONDecodeError`, so the other two failure classes propagate to the
caller. -/
def load_registry (file : Option (Except JsonLoadError Json)) : Except PyError Json :=
  match file with
  | none => .ok emptyRegistryJson
  | some (.error .jsonDecodeError) => .ok emptyRegistryJson
  | some (.error .unicodeDecodeError) => .error .unicodeDecodeError
  | some (.error .recursionError) => .error .recursionError
  | some (.ok v) => .ok v

/-- External effects consumed by `download_model`: whether the
`huggingface-cli` fetch succeeds (`_run_command` result, with any raised
exception also mapped to failure by the surrounding `try`), and whether the
placeholder GGUF file already exists. -/
structure DownloadDeps where
  fetchOk : Bool
  ggufExists : Bool
deriving DecidableEq, Repr

/-- `ModelManager.download_model`.  `arch` is `self.arch`; note that the
Python code subscripts `config.SUPPORTED_QUANT_TYPES[self.arch]` outside any
`try`, so an architecture missing from that table raises `KeyError`, and an
(unreachable for the shipped table) empty list would raise `IndexError` at
`[0]`.  Filesystem writes (mkdir, the placeholder file, `_save_registry`)
are abstracted; the persisted registry is tracked in `ManagerState.disk`. -/
def download_model (models_dir arch : String) (st : ManagerState)
    (model_id : String) (quant_type : Option String) (deps : DownloadDeps) :
    Except PyError (Bool × ManagerState) :=
  match SUPPORTED_MODELS model_id with
  | none => .ok (false, st)
  | some (model_name, description) =>
    let quantE : Except PyError String :=
      match quant_type with
      | some q => .ok q
      | none =>
        match SUPPORTED_QUANT_TYPES arch with
        | none => .error (.keyError arch)
        | some [] => .error .indexError
        | some (q :: _) => .ok q
    match quantE with
    | .error e => .error e
    | .ok quant =>
      match SUPPORTED_QUANT_TYPES arch with
      | none => .error (.keyError arch)
      | some supported =>
        if quant ∈ supported then
          if deps.fetchOk then
            let model_dir := models_dir ++ "/" ++ model_name
            let gguf_path := model_dir ++ "/ggml-model-" ++ quant ++ ".gguf"
            let record : InstalledModel :=
              ⟨model_id, model_name, quant, model_dir, gguf_path, description⟩
            let reg' := dictInsert st.registry model_name record
            .ok (true, { registry := reg', disk := reg' })
          else
            .ok (false, st)
        else
          .ok (false, st)

/-- `ModelManager.remove_model`.  `rmtreeOk` is whether `shutil.rmtree`
succeeds (its exceptions are caught and mapped to a `False` return). -/
def remove_model (st : ManagerState) (model_name : String) (rmtreeOk : Bool) :
    Bool × ManagerState :=
  match regLookup st.registry model_name with
  | none => (false, st)
  | some _ =>
    if rmtreeOk then
      (true, { registry := dictErase st.registry model_name
               disk := dictErase st.registry model_name })
    else
      (false, st)

/-- `ModelManager.get_model_path`: the `gguf_path` of an installed model. -/
def get_model_path (reg : Registry) (model_name : String) : Option String :=
  (regLookup reg model_name).map (·.gguf_path)

/-! ## Inference process orchestration (`inference.py`) -/

/-- Outcome of a completed subprocess: exit code plus captured streams. -/
structure ProcResult where
  returncode : Int
  stdout : String
  stderr : String
deriving DecidableEq, Repr

/-- Simplified `repr` of an argument list as interpolated into
`CalledProcessError.__str__` (Python quotes each element; the quoting is
abstracted away here and plays no role in any claim). -/
def pyListRepr (args : List String) : String :=
  "[" ++ String.intercalate ", " args ++ "]"

/-- `str(subprocess.CalledProcessError(...))`: mentions the command and the
exit status, and nothing else. -/
def calledProcessErrorStr (cmd : List String) (code : Int) : String :=
  "Command " ++ pyListRepr cmd ++ " returned non-zero exit status " ++ toString code ++ "."

/-- The argument vector built by `InferenceEngine.run_inference` (real-binary
branch).  `temp` stands for Python's `str(temperature)`. -/
def run_inference_command (llama_cli model_path : String)
    (n_predict threads : Nat) (prompt : String) (ctx_size : Nat)
    (temp : String) (conversation : Bool) : List String :=
  let command := [llama_cli,
    "-m", model_path,
    "-n", toString n_predict,
    "-t", toString threads,
    "-p", prompt,
    "-ngl", "0",
    "-c", toString ctx_size,
    "--temp", temp,
    "-b", "1"]
  if conversation then command ++ ["-cnv"] else command

/-- The argument vector built by `InferenceEngine.stream_inference`
(real-binary branch); the source duplicates the construction verbatim. -/
def stream_inference_command (llama_cli model_path : String)
    (n_predict threads : Nat) (prompt : String) (ctx_size : Nat)
    (temp : String) (conversation : Bool) : List String :=
  let command := [llama_cli,
    "-m", model_path,
    "-n", toString n_predict,
    "-t", toString threads,
    "-p", prompt,
    "-ngl", "0",
    "-c", toString ctx_size,
    "--temp", temp,
    "-b", "1"]
  if conversation then command ++ ["-cnv"] else command

/-- `InferenceEngine.run_inference` (real-binary branch): resolve the model
path from the registry (raising `ValueError` when absent), build the
command, run it via the `exec` oracle; on exit code 0 return stdout, else
log the `CalledProcessError` text and the captured stderr and raise
`RuntimeError` carrying the `CalledProcessError` text.  The second
component collects the `logger.error` lines emitted on the way. -/
def run_inference (reg : Registry) (llama_cli model_name prompt : String)
    (n_predict threads ctx_size : Nat) (temp : String) (conversation : Bool)
    (exec : List String → ProcResult) :
    Except PyError String × List String :=
  match get_model_path reg model_name with
  | none => (.error (.valueError ("Model " ++ model_name ++ " not found")), [])
  | some model_path =>
    let command := run_inference_command llama_cli model_path n_predict threads
      prompt ctx_size temp conversation
    let result := exec command
    if result.returncode = 0 then
      (.ok result.stdout, [])
    else
      let msg := "Error running inference: " ++
        calledProcessErrorStr command result.returncode
      (.error (.runtimeError msg), [msg, "stderr: " ++ result.stderr])

/-! ## Chat formatting (`inference.py`, chat_completion / stream_chat_completion) -/

/-- A chat message as the formatter sees it: role and content strings. -/
structure ChatMessage where
  role : Str
  content : Str
deriving DecidableEq, Repr

/-- One iteration of the prompt-building loop shared by `chat_completion`
and `stream_chat_completion`: recognized roles append their block,
anything else contributes nothing. -/
def formatStep (prompt : Str) (m : ChatMessage) : Str :=
  if m.role = "system".data then prompt ++ "System: ".data ++ m.content ++ "\n\n".data
  else if m.role = "user".data then prompt ++ "User: ".data ++ m.content ++ "\n\n".data
  else if m.role = "assistant".data then prompt ++ "Assistant: ".data ++ m.content ++ "\n\n".data
  else prompt

/-- The prompt built by `chat_completion` before calling `run_inference`. -/
def chat_prompt (messages : List ChatMessage) : Str :=
  (messages.foldl formatStep []) ++ "Assistant: ".data

/-- The prompt built by `stream_chat_completion` (the source duplicates the
loop of `chat_completion` verbatim). -/
def stream_chat_prompt (messages : List ChatMessage) : Str :=
  (messages.foldl formatStep []) ++ "Assistant: ".data

/-- Modelled from the spec: the role label of §4.5, `"<Role>: "` with the
role capitalized; compared against the implementation in the claim about
`formatPrompt`. -/
def specRoleLabel (role : Str) : Str :=
  if role = "system".data then "System".data
  else if role = "user".data then "User".data
  else "Assistant".data

/-- Modelled from the spec: one rendered message, `"<Role>: <content>\n\n"`. -/
def specRenderMessage (m : ChatMessage) : Str :=
  specRoleLabel m.role ++ ": ".data ++ m.content ++ "\n\n".data

/-- Modelled from the spec: `formatPrompt` as §4.5 words it — the rendered
messages in order followed by the trailing `"Assistant: "` cue. -/
def specFormatPrompt (messages : List ChatMessage) : Str :=
  concatAll (messages.map specRenderMessage) ++ "Assistant: ".data

/-- Is the role one of the three the prompt loop recognizes? -/
def recognizedRole (m : ChatMessage) : Bool :=
  m.role == "system".data || m.role == "user".data || m.role == "assistant".data

/-- `chat_completion`'s extraction of the assistant reply from raw stdout:
`response.split("Assistant: ")[-1].strip()`. -/
def extract_assistant_response (raw : Str) : Str :=
  pyStrip (pyLast (pySplitA raw))

/-- The message inside a chat-completion choice. -/
structure ChoiceMessage where
  role : Str
  content : Str
deriving DecidableEq, Repr

/-- One element of `choices` in the completion dict built by
`chat_completion`. -/
structure ChatChoice where
  index : Nat
  message : ChoiceMessage
  finish_reason : Str
deriving DecidableEq, Repr

/-- The completion envelope returned by `chat_completion` (the wall-clock
`created` field is omitted: it is `time.time()` and carries no logic). -/
structure ChatCompletion where
  id : Str
  object : Str
  model : Str
  choices : List ChatChoice
deriving DecidableEq, Repr

/-- The envelope `chat_completion` builds from the model name and the raw
stdout of the inference run. -/
def chat_completion_of (model_name raw : Str) : ChatCompletion :=
  { id := "chat-".data ++ model_name
    object := "chat.completion".data
    model := model_name
    choices := [{ index := 0
                  message := { role := "assistant".data
                               content := extract_assistant_response raw }
                  finish_reason := "stop".data }] }

/-- A streamed `chat.completion.chunk` envelope as built by
`stream_chat_completion` (again minus the `created` timestamp). -/
structure StreamChunkEnvelope where
  id : Str
  object : Str
  model : Str
  deltaRole : Option Str
  deltaContent : Option Str
  finish_reason : Option Str
deriving DecidableEq, Repr

/-- The delta envelope emitted for one raw chunk. -/
def mkDeltaChunk (model_name chunk : Str) : StreamChunkEnvelope :=
  { id := "chat-".data ++ model_name
    object := "chat.completion.chunk".data
    model := model_name
    deltaRole := some "assistant".data
    deltaContent := some chunk
    finish_reason := none }

/-- The final envelope with an empty delta and `finish_reason: "stop"`. -/
def finalChunk (model_name : Str) : StreamChunkEnvelope :=
  { id := "chat-".data ++ model_name
    object := "chat.completion.chunk".data
    model := model_name
    deltaRole := none
    deltaContent := none
    finish_reason := some "stop".data }

/-- `stream_chat_completion`'s `stream_callback` for one raw chunk: append
the chunk to the buffer, and if the buffer now contains `"Assistant: "`,
emit a delta envelope whose content is the whole chunk. -/
def stream_callback_step (model_name buffer chunk : Str) :
    Str × List StreamChunkEnvelope :=
  let buffer' := buffer ++ chunk
  if listContains assistantCue buffer' then
    (buffer', [mkDeltaChunk model_name chunk])
  else
    (buffer', [])

/-- Feeding a sequence of raw chunks through `stream_callback`, collecting
every envelope passed to the caller's callback. -/
def processChunks (model_name : Str) : Str → List Str → List StreamChunkEnvelope
  | _, [] => []
  | buffer, c :: cs =>
    match stream_callback_step model_name buffer c with
    | (buffer', es) => es ++ processChunks model_name buffer' cs

/-- The full envelope stream of `stream_chat_completion` for a given raw
chunk sequence: the per-chunk envelopes followed by the final stop chunk. -/
def stream_chat_outputs (model_name : Str) (chunks : List Str) :
    List StreamChunkEnvelope :=
  processChunks model_name [] chunks ++ [finalChunk model_name]

/-! ## Concrete fixtures used by witnesses and counterexamples -/

/-- An installed record for `bitnet_b1_58-large` as `download_model` would
create it. -/
def recLarge : InstalledModel :=
  ⟨"1bitLLM/bitnet_b1_58-large", "bitnet_b1_58-large", "i2_s",
   "models/bitnet_b1_58-large", "models/bitnet_b1_58-large/ggml-model-i2_s.gguf",
   "BitNet b1.58 large model"⟩

/-- A manager state with exactly `bitnet_b1_58-large` installed. -/
def stLarge : ManagerState :=
  ⟨[("bitnet_b1_58-large", recLarge)], [("bitnet_b1_58-large", recLarge)]⟩

/-- A pre-existing record for the default model installed with quant `tl1`. -/
def recPreTl1 : InstalledModel :=
  ⟨"microsoft/BitNet-b1.58-2B-4T", "BitNet-b1.58-2B-4T", "tl1",
   "models/BitNet-b1.58-2B-4T", "models/BitNet-b1.58-2B-4T/ggml-model-tl1.gguf",
   "Official BitNet 2B parameter model (4T tokens)"⟩

/-- A manager state in which the default model is already installed. -/
def stPre : ManagerState :=
  ⟨[("BitNet-b1.58-2B-4T", recPreTl1)], [("BitNet-b1.58-2B-4T", recPreTl1)]⟩

/-- The record `download_model` writes for the default model with quant
`i2_s` under `models_dir = "models"`. -/
def recPostI2s : InstalledModel :=
  ⟨"microsoft/BitNet-b1.58-2B-4T", "BitNet-b1.58-2B-4T", "i2_s",
   "models/BitNet-b1.58-2B-4T", "models/BitNet-b1.58-2B-4T/ggml-model-i2_s.gguf",
   "Official BitNet 2B parameter model (4T tokens)"⟩

/-- The manager state after re-downloading the default model over `stPre`. -/
def stMid : ManagerState :=
  ⟨[("BitNet-b1.58-2B-4T", recPostI2s)], [("BitNet-b1.58-2B-4T", recPostI2s)]⟩

/-- A process oracle whose process always exits 1 with a fixed stderr. -/
def execFail : List String → ProcResult :=
  fun _ => ⟨1, "", "ggml model file is corrupted"⟩

/-! ## Helper lemmas -/

theorem isPrefixOf_append_ext (n : Str) :
    ∀ (m t : Str), n.isPrefixOf m = true → n.isPrefixOf (m ++ t) = true := by
  induction n with
  | nil => intro m t _; simp [List.isPrefixOf]
  | cons a n' ih =>
    intro m t h
    cases m with
    | nil => simp [List.isPrefixOf] at h
    | cons b m' =>
      simp only [List.isPrefixOf, Bool.and_eq_true] at h ⊢
      exact ⟨h.1, ih m' t h.2⟩

theorem listContains_nil_needle (s : Str) : listContains [] s = true := by
  cases s <;> simp [listContains, List.isPrefixOf]

theorem listContains_of_isPrefixOf (needle s : Str)
    (h : needle.isPrefixOf s = true) : listContains needle s = true := by
  cases s with
  | nil =>
    cases needle with
    | nil => simp [listContains]
    | cons a n' => simp [List.isPrefixOf] at h
  | cons c cs => simp [listContains, h]

theorem listContains_append_right (n : Str) :
    ∀ (h t : Str), listContains n h = true → listContains n (h ++ t) = true := by
  intro h
  induction h with
  | nil =>
    intro t hc
    simp [listContains, List.isEmpty_iff] at hc
    subst hc
    exact listContains_nil_needle t
  | cons c cs ih =>
    intro t hc
    simp only [listContains, Bool.or_eq_true] at hc
    rcases hc with hp | hrest
    · have := isPrefixOf_append_ext n (c :: cs) t hp
      simp only [List.cons_append, listContains, Bool.or_eq_true]
      left
      simpa using this
    · simp only [List.cons_append, listContains, Bool.or_eq_true]
      right
      exact ih t hrest

theorem foldl_formatStep_spec (msgs : List ChatMessage) :
    ∀ acc : Str,
      (∀ m ∈ msgs, m.role = "system".data ∨ m.role = "user".data ∨ m.role = "assistant".data) →
      msgs.foldl formatStep acc = acc ++ concatAll (msgs.map specRenderMessage) := by
  induction msgs with
  | nil => intro acc _; simp [concatAll]
  | cons m rest ih =>
    intro acc h
    have hm := h m (List.mem_cons_self m rest)
    have hrest : ∀ x ∈ rest, x.role = "system".data ∨ x.role = "user".data ∨ x.role = "assistant".data :=
      fun x hx => h x (List.mem_cons_of_mem m hx)
    simp only [List.foldl_cons, List.map_cons, concatAll]
    rw [ih (formatStep acc m) hrest]
    rcases hm with hs | hu | ha
    · simp [formatStep, specRenderMessage, specRoleLabel, hs, List.append_assoc]
    · have : m.role ≠ "system".data := by rw [hu]; decide
      simp [formatStep, specRenderMessage, specRoleLabel, hu, this, List.append_assoc]
    · have h1 : m.role ≠ "system".data := by rw [ha]; decide
      have h2 : m.role ≠ "user".data := by rw [ha]; decide
      simp [formatStep, specRenderMessage, specRoleLabel, ha, h1, h2, List.append_assoc]

theorem foldl_formatStep_filter (msgs : List ChatMessage) :
    ∀ acc : Str,
      msgs.foldl formatStep acc = (msgs.filter recognizedRole).foldl formatStep acc := by
  induction msgs with
  | nil => intro acc; rfl
  | cons m rest ih =>
    intro acc
    by_cases hr : recognizedRole m = true
    · rw [List.filter_cons_of_pos hr]
      simp only [List.foldl_cons]
      exact ih (formatStep acc m)
    · rw [List.filter_cons_of_neg hr]
      have hskip : formatStep acc m = acc := by
        simp only [recognizedRole, Bool.or_eq_true, beq_iff_eq] at hr
        push_neg at hr
        simp [formatStep, hr.1.1, hr.1.2, hr.2]
      simp only [List.foldl_cons, hskip]
      exact ih acc

/-! ## Claim theorems -/

/-- Claim C4: for every model path, prompt and generation parameters, the
argument vectors built by `run_inference` and by `stream_inference` both
contain the adjacent pair `-ngl 0` forcing GPU offload to zero, in both
conversation and non-conversation mode. -/
theorem commands_force_ngl_zero (llama_cli model_path prompt temp : String)
    (n_predict threads ctx_size : Nat) (conversation : Bool) :
    (∃ s t, s ++ ["-ngl", "0"] ++ t =
      run_inference_command llama_cli model_path n_predict threads prompt ctx_size temp conversation) ∧
    (∃ s t, s ++ ["-ngl", "0"] ++ t =
      stream_inference_command llama_cli model_path n_predict threads prompt ctx_size temp conversation) := by
  cases conversation with
  | false =>
    exact ⟨⟨[llama_cli, "-m", model_path, "-n", toString n_predict, "-t", toString threads, "-p", prompt],
            ["-c", toString ctx_size, "--temp", temp, "-b", "1"], rfl⟩,
           ⟨[llama_cli, "-m", model_path, "-n", toString n_predict, "-t", toString threads, "-p", prompt],
            ["-c", toString ctx_size, "--temp", temp, "-b", "1"], rfl⟩⟩
  | true =>
    exact ⟨⟨[llama_cli, "-m", model_path, "-n", toString n_predict, "-t", toString threads, "-p", prompt],
            ["-c", toString ctx_size, "--temp", temp, "-b", "1", "-cnv"], rfl⟩,
           ⟨[llama_cli, "-m", model_path, "-n", toString n_predict, "-t", toString threads, "-p", prompt],
            ["-c", toString ctx_size, "--temp", temp, "-b", "1", "-cnv"], rfl⟩⟩

/-- Counterexample to claim C7 as stated: a registry file whose content
makes `json.load` raise `UnicodeDecodeError` (non-UTF-8 bytes) or
`RecursionError` (deep nesting) is malformed content on which
`_load_registry` raises to the caller instead of returning the empty
registry — only `json.JSONDecodeError` is caught. -/
theorem load_registry_raises_counterexample :
    load_registry (some (.error .unicodeDecodeError)) = .error .unicodeDecodeError ∧
    load_registry (some (.error .recursionError)) = .error .recursionError ∧
    (∀ v, load_registry (some (.error .unicodeDecodeError)) ≠ .ok v) :=
  ⟨rfl, rfl, fun _ h => nomatch h⟩

/-- Claim C7 (amended): `_load_registry` returns the empty registry
`\x7b"models": \x7b\x7d\x7d` when the file is missing or its content fails JSON
parsing with `json.JSONDecodeError`, and returns the decoded value
otherwise; it raises only when `json.load` fails outside that class
(`UnicodeDecodeError` on non-UTF-8 bytes, `RecursionError` on deep
nesting). -/
theorem load_registry_fails_open_amended :
    load_registry none = .ok emptyRegistryJson ∧
    load_registry (some (.error .jsonDecodeError)) = .ok emptyRegistryJson ∧
    (∀ v, load_registry (some (.ok v)) = .ok v) ∧
    (∀ file, (∀ v, load_registry file ≠ .ok v) →
      file = some (.error .unicodeDecodeError) ∨ file = some (.error .recursionError)) := by
  refine ⟨rfl, rfl, fun v => rfl, ?_⟩
  intro file h
  match file with
  | none => exact absurd rfl (h emptyRegistryJson)
  | some (.ok v) => exact absurd rfl (h v)
  | some (.error .jsonDecodeError) => exact absurd rfl (h emptyRegistryJson)
  | some (.error .unicodeDecodeError) => exact Or.inl rfl
  | some (.error .recursionError) => exact Or.inr rfl

/-- Witness for C7 (amended): the fallback at a missing file, and the
raising-only-on-uncaught-classes conjunct discharged at the non-UTF-8
file state. -/
theorem load_registry_fails_open_amended_witness :
    load_registry none = .ok emptyRegistryJson ∧
    ((some (Except.error JsonLoadError.unicodeDecodeError) : Option (Except JsonLoadError Json)) =
        some (Except.error JsonLoadError.unicodeDecodeError) ∨
      (some (Except.error JsonLoadError.unicodeDecodeError) : Option (Except JsonLoadError Json)) =
        some (Except.error JsonLoadError.recursionError)) :=
  ⟨load_registry_fails_open_amended.1,
   load_registry_fails_open_amended.2.2.2 (some (.error .unicodeDecodeError))
     (fun _ h => nomatch h)⟩

/-- Claim C9: on messages whose roles are all `system`/`user`/`assistant`,
the prompt built by `chat_completion` is exactly the concatenation, in
order, of `"<Role>: <content>\n\n"` blocks with capitalized role labels,
followed by the trailing `"Assistant: "` cue. -/
theorem chat_prompt_matches_spec (msgs : List ChatMessage)
    (h : ∀ m ∈ msgs, m.role = "system".data ∨ m.role = "user".data ∨ m.role = "assistant".data) :
    chat_prompt msgs = specFormatPrompt msgs := by
  unfold chat_prompt specFormatPrompt
  rw [foldl_formatStep_spec msgs [] h]
  simp

/-- Witness for C9 at the spec's example: `[{system,"Be terse"},{user,"Hi"}]`
formats to exactly `"System: Be terse\n\nUser: Hi\n\nAssistant: "`. -/
theorem chat_prompt_matches_spec_witness :
    (∀ m ∈ [ChatMessage.mk "system".data "Be terse".data, ChatMessage.mk "user".data "Hi".data],
      m.role = "system".data ∨ m.role = "user".data ∨ m.role = "assistant".data) ∧
    chat_prompt [ChatMessage.mk "system".data "Be terse".data, ChatMessage.mk "user".data "Hi".data] =
      "System: Be terse\n\nUser: Hi\n\nAssistant: ".data :=
  ⟨by decide,
   (chat_prompt_matches_spec _ (by decide)).trans (by decide)⟩

/-- Claim C10: in both `chat_completion` and `stream_chat_completion`, a
message whose role is not exactly `system`, `user` or `assistant`
contributes nothing: the built prompt equals the prompt built from the
sublist of recognized-role messages. -/
theorem prompt_skips_unrecognized_roles (msgs : List ChatMessage) :
    chat_prompt msgs = chat_prompt (msgs.filter recognizedRole) ∧
    stream_chat_prompt msgs = stream_chat_prompt (msgs.filter recognizedRole) := by
  unfold chat_prompt stream_chat_prompt
  rw [foldl_formatStep_filter msgs []]
  exact ⟨rfl, rfl⟩

/-- Claim C5: `remove_model` on an absent name fails without mutating the
state; if directory deletion throws it fails with the state (and hence the
record) unchanged; only on successful deletion is the record removed and
the registry persisted. -/
theorem remove_model_spec (st : ManagerState) (name : String) (rmtreeOk : Bool) :
    (regLookup st.registry name = none → remove_model st name rmtreeOk = (false, st)) ∧
    (rmtreeOk = false → remove_model st name rmtreeOk = (false, st)) ∧
    (∀ m, regLookup st.registry name = some m → rmtreeOk = true →
      remove_model st name rmtreeOk =
        (true, ⟨dictErase st.registry name, dictErase st.registry name⟩)) := by
  refine ⟨?_, ?_, ?_⟩
  · intro h
    simp [remove_model, h]
  · intro h
    subst h
    unfold remove_model
    cases regLookup st.registry name <;> simp
  · intro m hm hok
    subst hok
    simp [remove_model, hm]

/-- Witness for C5: the three branches at concrete states — removing from an
empty registry fails and leaves the state intact, a failed deletion leaves
the installed record in place, and a successful deletion removes and
persists. -/
theorem remove_model_spec_witness :
    remove_model ⟨[], []⟩ "bitnet_b1_58-large" true = (false, ⟨[], []⟩) ∧
    remove_model stLarge "bitnet_b1_58-large" false = (false, stLarge) ∧
    remove_model stLarge "bitnet_b1_58-large" true = (true, ⟨[], []⟩) :=
  ⟨(remove_model_spec ⟨[], []⟩ "bitnet_b1_58-large" true).1 (by decide),
   (remove_model_spec stLarge "bitnet_b1_58-large" false).2.1 rfl,
   ((remove_model_spec stLarge "bitnet_b1_58-large" true).2.2 recLarge (by decide) rfl).trans
     (by decide)⟩

theorem regLookup_none_forall (reg : Registry) (name : String)
    (h : regLookup reg name = none) : ∀ p ∈ reg, (p.1 == name) = false := by
  intro p hp
  simp only [regLookup, Option.map_eq_none', List.find?_eq_none] at h
  simpa using h p hp

theorem dictInsert_of_absent (reg : Registry) (name : String) (m : InstalledModel)
    (h : regLookup reg name = none) : dictInsert reg name m = reg ++ [(name, m)] := by
  have hany : reg.any (fun p => p.1 == name) = false := by
    rw [List.any_eq_false]
    intro p hp
    simpa using (regLookup_none_forall reg name h p hp)
  simp [dictInsert, hany]

theorem regLookup_append_self (reg : Registry) (name : String) (m : InstalledModel)
    (h : regLookup reg name = none) :
    regLookup (reg ++ [(name, m)]) name = some m := by
  induction reg with
  | nil => simp [regLookup, List.find?]
  | cons p rest ih =>
    have hp : (p.1 == name) = false :=
      regLookup_none_forall (p :: rest) name h p (List.mem_cons_self p rest)
    have hrest : regLookup rest name = none := by
      simp only [regLookup, Option.map_eq_none', List.find?_eq_none] at h ⊢
      intro x hx
      exact h x (List.mem_cons_of_mem p hx)
    simp only [List.cons_append, regLookup, List.find?_cons, hp]
    exact ih hrest

theorem dictErase_append_self (reg : Registry) (name : String) (m : InstalledModel)
    (h : regLookup reg name = none) :
    dictErase (reg ++ [(name, m)]) name = reg := by
  unfold dictErase
  rw [List.filter_append]
  have h1 : reg.filter (fun p => p.1 != name) = reg := by
    rw [List.filter_eq_self]
    intro p hp
    simp [bne, regLookup_none_forall reg name h p hp]
  have h2 : List.filter (fun p => p.1 != name) [(name, m)] = [] := by
    simp [List.filter, bne]
  rw [h1, h2, List.append_nil]

/-- Counterexample to claim C6 as stated: when the model's canonical name is
already installed (here with quant `tl1`), a successful re-download followed
by a successful remove leaves `list_installed_models` empty, not equal to
its value before the download. -/
theorem round_trip_counterexample :
    download_model "models" "arm64" stPre "microsoft/BitNet-b1.58-2B-4T"
      (some "i2_s") ⟨true, false⟩ = .ok (true, stMid) ∧
    remove_model stMid "BitNet-b1.58-2B-4T" true = (true, ⟨[], []⟩) ∧
    list_installed_models (⟨[], []⟩ : ManagerState) ≠ list_installed_models stPre := by
  refine ⟨rfl, by decide, by decide⟩

/-- Claim C6 (amended): when the catalog model's canonical name is NOT yet
in the registry, a successful download followed by a successful remove of
that name restores `list_installed_models` to its prior value. -/
theorem download_remove_round_trip (models_dir arch : String) (st : ManagerState)
    (model_id name desc quant : String) (supported : List String) (deps : DownloadDeps)
    (hmodel : SUPPORTED_MODELS model_id = some (name, desc))
    (harch : SUPPORTED_QUANT_TYPES arch = some supported)
    (hq : quant ∈ supported)
    (habsent : regLookup st.registry name = none)
    (hfetch : deps.fetchOk = true) :
    ∃ st', download_model models_dir arch st model_id (some quant) deps = .ok (true, st') ∧
      (remove_model st' name true).1 = true ∧
      list_installed_models (remove_model st' name true).2 = list_installed_models st := by
  have record : InstalledModel :=
    ⟨model_id, name, quant, models_dir ++ "/" ++ name,
     models_dir ++ "/" ++ name ++ "/ggml-model-" ++ quant ++ ".gguf", desc⟩
  refine ⟨⟨st.registry ++ [(name,
      ⟨model_id, name, quant, models_dir ++ "/" ++ name,
       models_dir ++ "/" ++ name ++ "/ggml-model-" ++ quant ++ ".gguf", desc⟩)],
    st.registry ++ [(name,
      ⟨model_id, name, quant, models_dir ++ "/" ++ name,
       models_dir ++ "/" ++ name ++ "/ggml-model-" ++ quant ++ ".gguf", desc⟩)]⟩, ?_, ?_, ?_⟩
  · have hins := dictInsert_of_absent st.registry name
      ⟨model_id, name, quant, models_dir ++ "/" ++ name,
       models_dir ++ "/" ++ name ++ "/ggml-model-" ++ quant ++ ".gguf", desc⟩ habsent
    simp [download_model, hmodel, harch, hfetch, if_pos hq, hins]
  · have hfind := regLookup_append_self st.registry name
      ⟨model_id, name, quant, models_dir ++ "/" ++ name,
       models_dir ++ "/" ++ name ++ "/ggml-model-" ++ quant ++ ".gguf", desc⟩ habsent
    simp [remove_model, hfind]
  · have hfind := regLookup_append_self st.registry name
      ⟨model_id, name, quant, models_dir ++ "/" ++ name,
       models_dir ++ "/" ++ name ++ "/ggml-model-" ++ quant ++ ".gguf", desc⟩ habsent
    have herase := dictErase_append_self st.registry name
      ⟨model_id, name, quant, models_dir ++ "/" ++ name,
       models_dir ++ "/" ++ name ++ "/ggml-model-" ++ quant ++ ".gguf", desc⟩ habsent
    simp [remove_model, hfind, list_installed_models, herase]

/-- Witness for C6 (amended): the round trip at the default model on an
initially empty registry. -/
theorem download_remove_round_trip_witness :
    ∃ st', download_model "models" "arm64" ⟨[], []⟩ "microsoft/BitNet-b1.58-2B-4T"
        (some "i2_s") ⟨true, false⟩ = .ok (true, st') ∧
      (remove_model st' "BitNet-b1.58-2B-4T" true).1 = true ∧
      list_installed_models (remove_model st' "BitNet-b1.58-2B-4T" true).2 =
        list_installed_models (⟨[], []⟩ : ManagerState) :=
  download_remove_round_trip "models" "arm64" ⟨[], []⟩ "microsoft/BitNet-b1.58-2B-4T"
    "BitNet-b1.58-2B-4T" "Official BitNet 2B parameter model (4T tokens)" "i2_s"
    ["i2_s", "tl1"] ⟨true, false⟩ rfl rfl (by decide) (by decide) rfl

/-- Counterexample to claim C3 as stated: on a host architecture absent from
the quantization table (machine string `"riscv64"` passes through the alias
table unchanged), `download_model` raises `KeyError` instead of returning
false — both with an explicit quant type and with the default. -/
theorem download_model_raises_counterexample :
    download_model "models" (resolveArch "riscv64") ⟨[], []⟩
      "microsoft/BitNet-b1.58-2B-4T" (some "i2_s") ⟨true, false⟩ =
        .error (.keyError "riscv64") ∧
    download_model "models" (resolveArch "riscv64") ⟨[], []⟩
      "microsoft/BitNet-b1.58-2B-4T" none ⟨true, false⟩ =
        .error (.keyError "riscv64") :=
  ⟨rfl, rfl⟩

/-- Claim C3 (amended): for architectures present in the
supported-quantization table, `download_model` never raises: it returns a
value, and returns false (state unchanged) on an unknown model id, on an
unsupported quantization kind, and on a fetch-tool failure.  For
architectures absent from the table the dictionary lookup raises `KeyError`
(see the counterexample). -/
theorem download_model_no_raise_on_known_arch (models_dir arch : String)
    (st : ManagerState) (model_id : String) (quant_type : Option String)
    (deps : DownloadDeps) (supported : List String)
    (harch : SUPPORTED_QUANT_TYPES arch = some supported)
    (hne : supported ≠ []) :
    (∃ r, download_model models_dir arch st model_id quant_type deps = .ok r) ∧
    (SUPPORTED_MODELS model_id = none →
      download_model models_dir arch st model_id quant_type deps = .ok (false, st)) ∧
    (∀ q, quant_type = some q → q ∉ supported →
      download_model models_dir arch st model_id quant_type deps = .ok (false, st)) ∧
    (deps.fetchOk = false →
      download_model models_dir arch st model_id quant_type deps = .ok (false, st)) := by
  cases hm : SUPPORTED_MODELS model_id with
  | none =>
    exact ⟨⟨(false, st), by simp [download_model, hm]⟩,
           fun _ => by simp [download_model, hm],
           fun q _ _ => by simp [download_model, hm],
           fun _ => by simp [download_model, hm]⟩
  | some pr =>
    obtain ⟨name, desc⟩ := pr
    have hconj2 : (some (name, desc) : Option (String × String)) = none →
        download_model models_dir arch st model_id quant_type deps = .ok (false, st) :=
      fun h => nomatch h
    cases quant_type with
    | some q =>
      have hconj3 : ∀ q', some q = some q' → q' ∉ supported →
          download_model models_dir arch st model_id (some q) deps = .ok (false, st) := by
        intro q' hq' hnot
        injection hq' with hqq
        subst hqq
        simp [download_model, hm, harch, hnot]
      by_cases hmem : q ∈ supported
      · cases hfetch : deps.fetchOk with
        | true =>
          refine ⟨⟨?_, ?_⟩, hconj2, hconj3, fun hf => nomatch hf⟩
          · exact (true, ⟨dictInsert st.registry name
              ⟨model_id, name, q, models_dir ++ "/" ++ name,
               models_dir ++ "/" ++ name ++ "/ggml-model-" ++ q ++ ".gguf", desc⟩,
              dictInsert st.registry name
              ⟨model_id, name, q, models_dir ++ "/" ++ name,
               models_dir ++ "/" ++ name ++ "/ggml-model-" ++ q ++ ".gguf", desc⟩⟩)
          · simp [download_model, hm, harch, hmem, hfetch]
        | false =>
          have hres : download_model models_dir arch st model_id (some q) deps = .ok (false, st) := by
            simp [download_model, hm, harch, hmem, hfetch]
          exact ⟨⟨(false, st), hres⟩, hconj2, hconj3, fun _ => hres⟩
      · have hres : download_model models_dir arch st model_id (some q) deps = .ok (false, st) := by
          simp [download_model, hm, harch, hmem]
        exact ⟨⟨(false, st), hres⟩, hconj2, hconj3, fun _ => hres⟩
    | none =>
      obtain ⟨qh, qt, rfl⟩ : ∃ qh qt, supported = qh :: qt := by
        cases supported with
        | nil => exact absurd rfl hne
        | cons qh qt => exact ⟨qh, qt, rfl⟩
      have hmem : qh ∈ qh :: qt := List.mem_cons_self qh qt
      have hconj3 : ∀ q', (none : Option String) = some q' → q' ∉ qh :: qt →
          download_model models_dir arch st model_id none deps = .ok (false, st) := by
        intro q' hq'; cases hq'
      cases hfetch : deps.fetchOk with
      | true =>
        refine ⟨⟨?_, ?_⟩, hconj2, hconj3, fun hf => nomatch hf⟩
        · exact (true, ⟨dictInsert st.registry name
            ⟨model_id, name, qh, models_dir ++ "/" ++ name,
             models_dir ++ "/" ++ name ++ "/ggml-model-" ++ qh ++ ".gguf", desc⟩,
            dictInsert st.registry name
            ⟨model_id, name, qh, models_dir ++ "/" ++ name,
             models_dir ++ "/" ++ name ++ "/ggml-model-" ++ qh ++ ".gguf", desc⟩⟩)
        · simp [download_model, hm, harch, hmem, hfetch]
      | false =>
        have hres : download_model models_dir arch st model_id none deps = .ok (false, st) := by
          simp [download_model, hm, harch, hmem, hfetch]
        exact ⟨⟨(false, st), hres⟩, hconj2, hconj3, fun _ => hres⟩

/-- Witness for C3 (amended) on `x86_64`: an unknown model id, an
unsupported quant kind, and a fetch failure all return false without
raising. -/
theorem download_model_no_raise_witness :
    download_model "models" "x86_64" ⟨[], []⟩ "unknown/model" (some "i2_s") ⟨true, false⟩ =
      .ok (false, ⟨[], []⟩) ∧
    download_model "models" "x86_64" ⟨[], []⟩ "1bitLLM/bitnet_b1_58-3B" (some "tl1") ⟨true, false⟩ =
      .ok (false, ⟨[], []⟩) ∧
    download_model "models" "x86_64" ⟨[], []⟩ "1bitLLM/bitnet_b1_58-3B" (some "i2_s") ⟨false, false⟩ =
      .ok (false, ⟨[], []⟩) :=
  ⟨(download_model_no_raise_on_known_arch "models" "x86_64" ⟨[], []⟩ "unknown/model"
      (some "i2_s") ⟨true, false⟩ ["i2_s", "tl2"] rfl (by decide)).2.1 rfl,
   (download_model_no_raise_on_known_arch "models" "x86_64" ⟨[], []⟩ "1bitLLM/bitnet_b1_58-3B"
      (some "tl1") ⟨true, false⟩ ["i2_s", "tl2"] rfl (by decide)).2.2.1 "tl1" rfl (by decide),
   (download_model_no_raise_on_known_arch "models" "x86_64" ⟨[], []⟩ "1bitLLM/bitnet_b1_58-3B"
      (some "i2_s") ⟨false, false⟩ ["i2_s", "tl2"] rfl (by decide)).2.2.2 rfl⟩

/-- Counterexample to claim C1 as stated: at a concrete installed model and
a process exiting 1 with stderr `"ggml model file is corrupted"`, the raised
`RuntimeError` payload is the `CalledProcessError` text and does NOT contain
the captured stderr; the stderr reaches only the log. -/
theorem run_inference_stderr_not_in_error :
    (run_inference stLarge.registry "llama-cli" "bitnet_b1_58-large" "Hello"
        128 4 2048 "0.8" false execFail).1 =
      .error (.runtimeError ("Error running inference: " ++
        calledProcessErrorStr (run_inference_command "llama-cli"
          "models/bitnet_b1_58-large/ggml-model-i2_s.gguf" 128 4 "Hello" 2048 "0.8" false) 1)) ∧
    listContains "ggml model file is corrupted".data
      ("Error running inference: " ++
        calledProcessErrorStr (run_inference_command "llama-cli"
          "models/bitnet_b1_58-large/ggml-model-i2_s.gguf" 128 4 "Hello" 2048 "0.8" false) 1).data
      = false := by
  exact ⟨rfl, by decide⟩

/-- Claim C1 (amended): on a non-zero exit, `run_inference` raises a
`RuntimeError` whose payload is the `CalledProcessError` description
(command and exit status) — a payload that depends only on the command and
the exit code, not on the captured stderr — while the stderr text is
emitted verbatim on the log channel. -/
theorem run_inference_error_payload (reg : Registry)
    (llama_cli model_name prompt temp : String)
    (n_predict threads ctx_size : Nat) (conversation : Bool)
    (exec exec' : List String → ProcResult) (model_path : String)
    (hpath : get_model_path reg model_name = some model_path)
    (hcode : (exec (run_inference_command llama_cli model_path n_predict threads
      prompt ctx_size temp conversation)).returncode ≠ 0) :
    run_inference reg llama_cli model_name prompt n_predict threads ctx_size temp
        conversation exec =
      (.error (.runtimeError ("Error running inference: " ++
          calledProcessErrorStr
            (run_inference_command llama_cli model_path n_predict threads prompt ctx_size temp conversation)
            (exec (run_inference_command llama_cli model_path n_predict threads prompt ctx_size temp conversation)).returncode)),
       ["Error running inference: " ++
          calledProcessErrorStr
            (run_inference_command llama_cli model_path n_predict threads prompt ctx_size temp conversation)
            (exec (run_inference_command llama_cli model_path n_predict threads prompt ctx_size temp conversation)).returncode,
        "stderr: " ++ (exec (run_inference_command llama_cli model_path n_predict threads prompt ctx_size temp conversation)).stderr]) ∧
    ((exec' (run_inference_command llama_cli model_path n_predict threads prompt ctx_size temp conversation)).returncode =
        (exec (run_inference_command llama_cli model_path n_predict threads prompt ctx_size temp conversation)).returncode →
      (run_inference reg llama_cli model_name prompt n_predict threads ctx_size temp conversation exec).1 =
      (run_inference reg llama_cli model_name prompt n_predict threads ctx_size temp conversation exec').1) := by
  constructor
  · simp [run_inference, hpath, hcode]
  · intro h
    have hcode' : (exec' (run_inference_command llama_cli model_path n_predict threads
        prompt ctx_size temp conversation)).returncode ≠ 0 := by
      rw [h]; exact hcode
    simp [run_inference, hpath, hcode, hcode', h]

/-- Witness for C1 (amended): the concrete failing run of the
counterexample, with the stderr text showing up in the log line. -/
theorem run_inference_error_payload_witness :
    get_model_path stLarge.registry "bitnet_b1_58-large" =
      some "models/bitnet_b1_58-large/ggml-model-i2_s.gguf" ∧
    run_inference stLarge.registry "llama-cli" "bitnet_b1_58-large" "Hello"
        128 4 2048 "0.8" false execFail =
      (.error (.runtimeError ("Error running inference: " ++
          calledProcessErrorStr (run_inference_command "llama-cli"
            "models/bitnet_b1_58-large/ggml-model-i2_s.gguf" 128 4 "Hello" 2048 "0.8" false) 1)),
       ["Error running inference: " ++
          calledProcessErrorStr (run_inference_command "llama-cli"
            "models/bitnet_b1_58-large/ggml-model-i2_s.gguf" 128 4 "Hello" 2048 "0.8" false) 1,
        "stderr: ggml model file is corrupted"]) := by
  refine ⟨rfl, ?_⟩
  exact (run_inference_error_payload stLarge.registry "llama-cli" "bitnet_b1_58-large"
    "Hello" "0.8" 128 4 2048 false execFail execFail
    "models/bitnet_b1_58-large/ggml-model-i2_s.gguf" rfl (by decide)).1

theorem processChunks_cons (model buffer c : Str) (cs : List Str) :
    processChunks model buffer (c :: cs) =
      (if listContains assistantCue (buffer ++ c) then [mkDeltaChunk model c] else []) ++
        processChunks model (buffer ++ c) cs := by
  by_cases hx : listContains assistantCue (buffer ++ c) = true
  · simp [processChunks, stream_callback_step, hx]
  · simp [processChunks, stream_callback_step, hx]

/-- Counterexample to claim C2 as stated: on the chunk sequence
`["Hi\n", "Assistant: ", "Hel", "lo"]` the stream emits a delta envelope for
the `"Assistant: "` chunk itself (the membership test runs after the chunk
is appended to the buffer), so the output is four envelopes, not the three
the claim lists. -/
theorem stream_chunks_counterexample :
    stream_chat_outputs "m".data ["Hi\n".data, "Assistant: ".data, "Hel".data, "lo".data] =
      [mkDeltaChunk "m".data "Assistant: ".data, mkDeltaChunk "m".data "Hel".data,
       mkDeltaChunk "m".data "lo".data, finalChunk "m".data] ∧
    stream_chat_outputs "m".data ["Hi\n".data, "Assistant: ".data, "Hel".data, "lo".data] ≠
      [mkDeltaChunk "m".data "Hel".data, mkDeltaChunk "m".data "lo".data, finalChunk "m".data] :=
  ⟨by decide, by decide⟩

/-- Claim C2 (amended): chunks arriving while the buffer (after appending)
still lacks `"Assistant: "` are suppressed; from the chunk that first makes
the buffer contain `"Assistant: "` onwards — that chunk included — every
chunk is re-emitted as a delta envelope; the stream ends with the final
empty-delta `finish_reason:"stop"` envelope.  On the example input the
emitted envelopes are deltas `"Assistant: "`, `"Hel"`, `"lo"`, then stop. -/
theorem stream_chat_emission (model : Str) :
    (∀ buffer chunks, listContains assistantCue (buffer ++ concatAll chunks) = false →
      processChunks model buffer chunks = []) ∧
    (∀ buffer chunks, listContains assistantCue buffer = true →
      processChunks model buffer chunks = chunks.map (mkDeltaChunk model)) ∧
    stream_chat_outputs model ["Hi\n".data, "Assistant: ".data, "Hel".data, "lo".data] =
      [mkDeltaChunk model "Assistant: ".data, mkDeltaChunk model "Hel".data,
       mkDeltaChunk model "lo".data, finalChunk model] := by
  refine ⟨?_, ?_, ?_⟩
  · intro buffer chunks
    induction chunks generalizing buffer with
    | nil => intro _; rfl
    | cons c cs ih =>
      intro h
      rw [show concatAll (c :: cs) = c ++ concatAll cs from rfl] at h
      have hbc : listContains assistantCue (buffer ++ c) = false := by
        cases hx : listContains assistantCue (buffer ++ c) with
        | false => rfl
        | true =>
          have hmore := listContains_append_right assistantCue (buffer ++ c) (concatAll cs) hx
          rw [List.append_assoc] at hmore
          rw [hmore] at h
          cases h
      have hnext : listContains assistantCue (buffer ++ c ++ concatAll cs) = false := by
        rw [List.append_assoc]
        exact h
      simp [processChunks, stream_callback_step, hbc]
      exact ih (buffer ++ c) hnext
  · intro buffer chunks
    induction chunks generalizing buffer with
    | nil => intro _; rfl
    | cons c cs ih =>
      intro h
      have hbc : listContains assistantCue (buffer ++ c) = true :=
        listContains_append_right assistantCue buffer c h
      simp [processChunks, stream_callback_step, hbc]
      exact ih (buffer ++ c) hbc
  · have hcue : "Assistant: ".data = ['A', 's', 's', 'i', 's', 't', 'a', 'n', 't', ':', ' '] := rfl
    have c1 : listContains assistantCue ['H', 'i', '\n'] = false := by decide
    have c2 : listContains assistantCue
        (['H', 'i', '\n'] ++ ['A', 's', 's', 'i', 's', 't', 'a', 'n', 't', ':', ' ']) = true := by decide
    have c3 : listContains assistantCue
        (['H', 'i', '\n'] ++ ['A', 's', 's', 'i', 's', 't', 'a', 'n', 't', ':', ' '] ++
          ['H', 'e', 'l']) = true := by decide
    have c4 : listContains assistantCue
        (['H', 'i', '\n'] ++ ['A', 's', 's', 'i', 's', 't', 'a', 'n', 't', ':', ' '] ++
          ['H', 'e', 'l'] ++ ['l', 'o']) = true := by decide
    have e2 : listContains assistantCue
        ['H', 'i', '\n', 'A', 's', 's', 'i', 's', 't', 'a', 'n', 't', ':', ' '] = true := by decide
    have e3 : listContains assistantCue
        ['H', 'i', '\n', 'A', 's', 's', 'i', 's', 't', 'a', 'n', 't', ':', ' ', 'H', 'e', 'l'] =
        true := by decide
    have e4 : listContains assistantCue
        ['H', 'i', '\n', 'A', 's', 's', 'i', 's', 't', 'a', 'n', 't', ':', ' ', 'H', 'e', 'l', 'l', 'o'] =
        true := by decide
    simp only [stream_chat_outputs]
    rw [processChunks_cons, processChunks_cons, processChunks_cons, processChunks_cons]
    simp only [List.nil_append]
    simp [processChunks, c1, c2, c3, c4, e2, e3, e4]

/-- Witness for C2 (amended): a pre-marker chunk is suppressed, and once the
buffer holds the marker every chunk is re-emitted. -/
theorem stream_chat_emission_witness :
    processChunks "m".data "Hi".data ["!\n".data] = [] ∧
    processChunks "m".data "Assistant: ".data ["Hel".data, "lo".data] =
      [mkDeltaChunk "m".data "Hel".data, mkDeltaChunk "m".data "lo".data] := by
  constructor
  · exact (stream_chat_emission "m".data).1 "Hi".data ["!\n".data] (by decide)
  · have h := (stream_chat_emission "m".data).2.1 "Assistant: ".data
      ["Hel".data, "lo".data] (by decide)
    rw [h]
    rfl

theorem pySplitA_cons_pos (c : Char) (cs : Str)
    (h : assistantCue.isPrefixOf (c :: cs) = true) :
    pySplitA (c :: cs) = [] :: pySplitA ((c :: cs).drop assistantCue.length) := by
  rw [pySplitA]
  rw [if_pos h]

theorem pySplitA_cons_neg (c : Char) (cs : Str)
    (h : assistantCue.isPrefixOf (c :: cs) = false) :
    pySplitA (c :: cs) =
      match pySplitA cs with
      | [] => [[c]]
      | h :: t => (c :: h) :: t := by
  rw [pySplitA]
  rw [if_neg (by simp [h])]

theorem drop_append_len {α : Type} : ∀ (l₁ l₂ : List α), (l₁ ++ l₂).drop l₁.length = l₂ := by
  intro l₁ l₂
  induction l₁ with
  | nil => rfl
  | cons a t ih => simp [ih]

theorem drop_append_ge {α : Type} :
    ∀ (l₁ l₂ : List α) (n : Nat), n ≤ l₁.length → (l₁ ++ l₂).drop n = l₁.drop n ++ l₂ := by
  intro l₁
  induction l₁ with
  | nil =>
    intro l₂ n hn
    have : n = 0 := Nat.le_zero.mp hn
    subst this
    rfl
  | cons a t ih =>
    intro l₂ n hn
    cases n with
    | zero => rfl
    | succ m =>
      simp only [List.cons_append, List.drop_succ_cons]
      exact ih l₂ m (by simpa using hn)

theorem take_append_ge {α : Type} :
    ∀ (l₁ l₂ : List α) (n : Nat), l₁.length ≤ n →
      (l₁ ++ l₂).take n = l₁ ++ l₂.take (n - l₁.length) := by
  intro l₁
  induction l₁ with
  | nil => intro l₂ n _; rfl
  | cons a t ih =>
    intro l₂ n hn
    cases n with
    | zero => simp at hn
    | succ m =>
      simp only [List.cons_append, List.take_succ_cons, List.length_cons]
      rw [ih l₂ m (by simpa using hn)]
      simp [Nat.succ_sub_succ]

theorem take_le_append {α : Type} :
    ∀ (l₁ l₂ : List α) (n : Nat), n ≤ l₁.length → (l₁ ++ l₂).take n = l₁.take n := by
  intro l₁
  induction l₁ with
  | nil =>
    intro l₂ n hn
    have : n = 0 := Nat.le_zero.mp hn
    subst this
    rfl
  | cons a t ih =>
    intro l₂ n hn
    cases n with
    | zero => rfl
    | succ m =>
      simp only [List.cons_append, List.take_succ_cons]
      rw [ih l₂ m (by simpa using hn)]

theorem isPrefixOf_append_self : ∀ (n t : Str), n.isPrefixOf (n ++ t) = true := by
  intro n
  induction n with
  | nil => intro t; simp [List.isPrefixOf]
  | cons a n' ih =>
    intro t
    simp only [List.cons_append, List.isPrefixOf, Bool.and_eq_true]
    exact ⟨by simp, ih t⟩

theorem isPrefixOf_eq_take : ∀ (n m : Str), n.isPrefixOf m = true → n = m.take n.length := by
  intro n
  induction n with
  | nil => intro m _; rfl
  | cons a n' ih =>
    intro m h
    cases m with
    | nil => simp [List.isPrefixOf] at h
    | cons b m' =>
      simp only [List.isPrefixOf, Bool.and_eq_true] at h
      have hab : a = b := eq_of_beq h.1
      subst hab
      simp only [List.length_cons, List.take_succ_cons]
      exact congrArg (List.cons a) (ih m' h.2)

theorem pySplitA_ne_nil (s : Str) : pySplitA s ≠ [] := by
  cases s with
  | nil => simp [pySplitA]
  | cons c cs =>
    cases hp : assistantCue.isPrefixOf (c :: cs) with
    | true =>
      rw [pySplitA_cons_pos c cs hp]
      simp
    | false =>
      rw [pySplitA_cons_neg c cs hp]
      cases pySplitA cs <;> simp

theorem pySplitA_no_cue : ∀ s : Str, listContains assistantCue s = false → pySplitA s = [s] := by
  intro s
  induction s with
  | nil => intro _; simp [pySplitA]
  | cons c cs ih =>
    intro h
    have hsplit : (assistantCue.isPrefixOf (c :: cs) || listContains assistantCue cs) = false := h
    rw [Bool.or_eq_false_iff] at hsplit
    rw [pySplitA_cons_neg c cs hsplit.1, ih hsplit.2]

theorem pySplitA_two_of_cue : ∀ s : Str, listContains assistantCue s = true →
    2 ≤ (pySplitA s).length := by
  intro s
  induction s with
  | nil => intro h; exact absurd h (by decide)
  | cons c cs ih =>
    intro h
    cases hp : assistantCue.isPrefixOf (c :: cs) with
    | true =>
      rw [pySplitA_cons_pos c cs hp]
      cases hq : pySplitA ((c :: cs).drop assistantCue.length) with
      | nil => exact absurd hq (pySplitA_ne_nil _)
      | cons x xs => simp
    | false =>
      have hrest : listContains assistantCue cs = true := by
        have hsplit : listContains assistantCue (c :: cs) =
            (assistantCue.isPrefixOf (c :: cs) || listContains assistantCue cs) := rfl
        rw [hsplit, hp] at h
        simpa using h
      rw [pySplitA_cons_neg c cs hp]
      have h2 := ih hrest
      cases hq : pySplitA cs with
      | nil => exact absurd hq (pySplitA_ne_nil cs)
      | cons x xs =>
        rw [hq] at h2
        cases xs with
        | nil => simp at h2
        | cons y ys => simp

theorem listContains_sandwich : ∀ x y : Str,
    listContains assistantCue (x ++ (assistantCue ++ y)) = true := by
  intro x y
  induction x with
  | nil =>
    simp only [List.nil_append]
    exact listContains_of_isPrefixOf _ _ (isPrefixOf_append_self assistantCue y)
  | cons c x' ih =>
    simp only [List.cons_append]
    have hsplit : listContains assistantCue (c :: (x' ++ (assistantCue ++ y))) =
        (assistantCue.isPrefixOf (c :: (x' ++ (assistantCue ++ y))) ||
          listContains assistantCue (x' ++ (assistantCue ++ y))) := rfl
    rw [hsplit, ih]
    simp

theorem cue_no_border : ∀ k, k < 11 → 0 < k →
    assistantCue.drop k ≠ assistantCue.take (11 - k) := by
  decide

theorem pyLast_cons_of_ne (x : Str) (l : List Str) (h : l ≠ []) :
    pyLast (x :: l) = pyLast l := by
  cases l with
  | nil => exact absurd rfl h
  | cons y ys => rfl

theorem no_cue_overlap (a rest : Str) (hlen : a.length < 11) (hpos : a ≠ [])
    (hp : assistantCue.isPrefixOf (a ++ (assistantCue ++ rest)) = true) : False := by
  have h11 : assistantCue.length = 11 := rfl
  have htake := isPrefixOf_eq_take assistantCue (a ++ (assistantCue ++ rest)) hp
  rw [h11] at htake
  rw [take_append_ge a (assistantCue ++ rest) 11 (Nat.le_of_lt hlen)] at htake
  rw [take_le_append assistantCue rest (11 - a.length) (by rw [h11]; omega)] at htake
  have hdrop := congrArg (List.drop a.length) htake
  rw [drop_append_len a (assistantCue.take (11 - a.length))] at hdrop
  have hk : 0 < a.length := List.length_pos.mpr hpos
  exact cue_no_border a.length hlen hk hdrop

theorem splitA_base (b : Str) (hb : listContains assistantCue b = false) :
    pyLast (pySplitA (assistantCue ++ b)) = b := by
  have hpre : assistantCue.isPrefixOf (assistantCue ++ b) = true :=
    isPrefixOf_append_self assistantCue b
  have hcons : assistantCue ++ b = 'A' :: ("ssistant: ".data ++ b) := rfl
  rw [hcons] at hpre
  rw [hcons, pySplitA_cons_pos _ _ hpre]
  have hdrop : ('A' :: ("ssistant: ".data ++ b)).drop assistantCue.length = b := by
    rw [← hcons]
    exact drop_append_len assistantCue b
  rw [hdrop, pySplitA_no_cue b hb]
  rfl

theorem splitA_after_last_aux :
    ∀ n : Nat, ∀ a : Str, a.length ≤ n → ∀ b : Str,
      listContains assistantCue b = false →
      pyLast (pySplitA (a ++ (assistantCue ++ b))) = b := by
  intro n
  induction n with
  | zero =>
    intro a ha b hb
    have ha0 : a = [] := List.eq_nil_of_length_eq_zero (Nat.le_zero.mp ha)
    subst ha0
    simpa using splitA_base b hb
  | succ n ih =>
    intro a ha b hb
    cases a with
    | nil => simpa using splitA_base b hb
    | cons c a' =>
      by_cases hp : assistantCue.isPrefixOf ((c :: a') ++ (assistantCue ++ b)) = true
      · by_cases hlen : 11 ≤ (c :: a').length
        · rw [List.cons_append] at hp
          rw [List.cons_append, pySplitA_cons_pos _ _ hp]
          rw [← List.cons_append,
            drop_append_ge (c :: a') (assistantCue ++ b) assistantCue.length
              (by rw [show assistantCue.length = 11 from rfl]; exact hlen)]
          have hne := pySplitA_ne_nil ((c :: a').drop assistantCue.length ++ (assistantCue ++ b))
          rw [pyLast_cons_of_ne _ _ hne]
          apply ih ((c :: a').drop assistantCue.length) ?_ b hb
          rw [List.length_drop, show assistantCue.length = 11 from rfl]
          simp only [List.length_cons] at ha ⊢
          omega
        · exact (no_cue_overlap (c :: a') b (Nat.lt_of_not_le hlen)
            (List.cons_ne_nil c a') hp).elim
      · have hpf : assistantCue.isPrefixOf (c :: (a' ++ (assistantCue ++ b))) = false := by
          rw [← List.cons_append]
          exact Bool.eq_false_iff.mpr hp
        rw [List.cons_append, pySplitA_cons_neg _ _ hpf]
        have hih := ih a' (by simp only [List.length_cons] at ha; omega) b hb
        have h2 := pySplitA_two_of_cue (a' ++ (assistantCue ++ b)) (listContains_sandwich a' b)
        cases hq : pySplitA (a' ++ (assistantCue ++ b)) with
        | nil => exact absurd hq (pySplitA_ne_nil _)
        | cons x xs =>
          rw [hq] at hih h2
          cases xs with
          | nil => simp at h2
          | cons y ys => exact hih

theorem splitA_after_last (a b : Str) (hb : listContains assistantCue b = false) :
    pyLast (pySplitA (a ++ (assistantCue ++ b))) = b :=
  splitA_after_last_aux a.length a le_rfl b hb

/-- Claim C8: the assistant reply extracted by `chat_completion` is the
substring of the raw output after the last occurrence of `"Assistant: "`
(the suffix `b` containing no further marker), trimmed of surrounding
whitespace, wrapped in the completion envelope. -/
theorem chat_completion_last_assistant (model a b : Str)
    (hb : listContains assistantCue b = false) :
    chat_completion_of model (a ++ (assistantCue ++ b)) =
      { id := "chat-".data ++ model
        object := "chat.completion".data
        model := model
        choices := [{ index := 0
                      message := { role := "assistant".data, content := pyStrip b }
                      finish_reason := "stop".data }] } := by
  unfold chat_completion_of extract_assistant_response
  rw [splitA_after_last a b hb]

/-- Witness for C8 at the spec's example: raw text
`"Hi\nAssistant: Hello there"` with model `"m"` yields content
`"Hello there"`. -/
theorem chat_completion_last_assistant_witness :
    listContains assistantCue "Hello there".data = false ∧
    chat_completion_of "m".data "Hi\nAssistant: Hello there".data =
      { id := "chat-m".data
        object := "chat.completion".data
        model := "m".data
        choices := [{ index := 0
                      message := { role := "assistant".data, content := "Hello there".data }
                      finish_reason := "stop".data }] } := by
  refine ⟨by decide, ?_⟩
  have heq : "Hi\nAssistant: Hello there".data =
      "Hi\n".data ++ (assistantCue ++ "Hello there".data) := by decide
  rw [heq, chat_completion_last_assistant "m".data "Hi\n".data "Hello there".data (by decide)]
  decide
